import Mathlib

/-!
# Verification of the `oxc_transformer` pipeline orchestrator

Shallow embedding of `crates/oxc_transformer/src/lib.rs`: the `Transformer`
orchestrator that composes the three lowering passes (TypeScript, React,
Decorators) into a single mutable depth-first traversal, collecting
diagnostics in a shared context and aggregating them into the result of
`build`.

The concrete pass bodies (`typescript.rs`, `react.rs`, `decorators.rs`), the
shared-context module (`context.rs`) and the generic walk (`oxc_ast`'s
`walk_mut`) are not part of the sources under verification; where their
behavior matters they are modelled from the specification, as noted on each
definition. Pass behaviors are kept abstract (arbitrary functions), so every
universally quantified theorem below holds for any pass implementation.
-/

namespace Oxc

/-- A diagnostic record: the spec says each entry carries a message and a
source location; both are kept abstract as numbers. -/
structure Diag where
  msg : Nat
  loc : Nat
deriving DecidableEq, Repr

/-- Dialect descriptor (`oxc_span::SourceType`): module vs. script flavor and
whether the source is type-annotated. Read-only for the whole run. -/
structure SourceType where
  module : Bool
  typescript : Bool
deriving DecidableEq, Repr

/-- Abstract semantic-analysis result (`oxc_semantic::Semantic`): precomputed
read-only scope/binding information, never inspected by the orchestrator. -/
abbrev Semantic := Nat

/-- Modelled from the spec: the read-only part of `TransformCtx` built by
`TransformCtx::new(allocator, source_type, semantic)` (`context.rs` is not
under the verified sources). The bulk allocator is a memory-management
artifact and is not modelled; the mutable error log lives in `RunState`. -/
structure TransformCtx where
  source_type : SourceType
  semantic : Semantic
deriving DecidableEq, Repr

/-- The three passes declared in `Transformer`, in declared order
`x0_typescript`, `x1_react`, `x2_decorators`. -/
inductive PassId where
  | typescript
  | react
  | decorators
deriving DecidableEq, Repr

/-- Which hook of the pass contract was invoked. -/
inductive Hook where
  | onStatement
  | onExpression
deriving DecidableEq, Repr

/-- Syntax tree node: a tagged union of statement and expression variants,
each holding an ordered list of child nodes. Modelled from the spec's data
model ("rooted tree of statement and expression nodes (tagged-union
variants)"); the concrete `oxc_ast` node types are not under the verified
sources. -/
inductive Node where
  | stmt : Nat → List Node → Node
  | expr : Nat → List Node → Node

/-- The program root (`oxc_ast::ast::Program`): a body of top-level nodes. -/
structure Program where
  body : List Node

/-- Ghost instrumentation: one record per hook invocation, stating which pass
was invoked with which hook, the node the hook received, and the diagnostics
it recorded during that invocation. The log does not influence the
computation; it only lets theorems speak about invocation order and counts. -/
structure LogEntry where
  pid : PassId
  hook : Hook
  node : Node
  diags : List Diag

/-- The (pass, hook, received node) projection of a log entry. -/
def LogEntry.key (e : LogEntry) : PassId × Hook × Node := (e.pid, e.hook, e.node)

/-- The pass contract (spec §4.3): each pass exposes `on_statement` and
`on_expression` hooks that may rewrite the node in place and record
diagnostics, threaded here through an explicit pass-local state `σ`.
In the Rust sources these are the `transform_statement` /
`transform_expression` methods called by `VisitMut for Transformer`. -/
structure Pass (σ : Type) where
  transform_statement : TransformCtx → σ → Node → σ × Node × List Diag
  transform_expression : TransformCtx → σ → Node → σ × Node × List Diag

/-- Per-pass option record. Modelled from the spec: the concrete option types
(`TypeScriptOptions`, `ReactOptions`, `DecoratorsOptions`) are not under the
verified sources; the spec only requires that a pass can be disabled via its
configuration record, in which case it performs no rewriting and records no
diagnostics. -/
structure PassOptions where
  enabled : Bool
deriving DecidableEq, Repr

/-- Global assumptions record (`CompilerAssumptions`): pure data, modelled
from the spec as an abstract flag set; never consulted by the orchestrator. -/
structure CompilerAssumptions where
  flags : List Bool
deriving DecidableEq, Repr

/-- `TransformOptions` from `lib.rs`: the global assumptions record plus one
option record per pass. -/
structure TransformOptions where
  assumptions : CompilerAssumptions
  decorators : PassOptions
  typescript : PassOptions
  react : PassOptions
deriving DecidableEq, Repr

/-- The orchestrator (`Transformer` from `lib.rs`): the shared read-only
context plus one instance of each pass, in declared order. -/
structure Transformer (σ : Type) where
  ctx : TransformCtx
  x0_typescript : Pass σ
  x1_react : Pass σ
  x2_decorators : Pass σ

/-- The mutable state threaded through one run: the three pass-local states,
the append-only diagnostic log of the shared context (`ctx.errors`), and the
ghost invocation log. -/
structure RunState (σ : Type) where
  s0 : σ
  s1 : σ
  s2 : σ
  errors : List Diag
  log : List LogEntry

/-- Fresh run state: empty diagnostic sequence and empty invocation log, as
built by `Transformer::new` via `TransformCtx::new`. -/
def RunState.init {σ : Type} (s0 s1 s2 : σ) : RunState σ :=
  ⟨s0, s1, s2, [], []⟩

/-- `TransformCtx::take_errors`: drains the diagnostic sequence, returning
the full ordered list and clearing the log. -/
def RunState.take_errors {σ : Type} (st : RunState σ) : List Diag × RunState σ :=
  (st.errors, { st with errors := [] })

/-- A pass whose hooks perform no rewriting and record nothing. Modelled from
the spec: the disabled behavior of a pass. -/
def idPass {σ : Type} : Pass σ :=
  { transform_statement := fun _ s n => (s, n, [])
    transform_expression := fun _ s n => (s, n, []) }

/-- Modelled from the spec: pass construction from its option record (the
pass bodies are not under the verified sources). A disabled pass is inert;
an enabled pass has an arbitrary behavior `impl`. -/
def mkPass {σ : Type} (opts : PassOptions) (impl : Pass σ) : Pass σ :=
  if opts.enabled then impl else idPass

/-- `Transformer::new`: builds the shared context from the dialect descriptor
and semantic result, and one instance of each pass from its option record,
in the fixed declared order. -/
def Transformer.new {σ : Type} (source_type : SourceType) (semantic : Semantic)
    (options : TransformOptions) (ts_impl react_impl dec_impl : Pass σ) :
    Transformer σ :=
  { ctx := ⟨source_type, semantic⟩
    x0_typescript := mkPass options.typescript ts_impl
    x1_react := mkPass options.react react_impl
    x2_decorators := mkPass options.decorators dec_impl }

/-- The hook phase of `VisitMut for Transformer` at one node (`lib.rs`
lines 97–106): at a statement node, `x0_typescript.transform_statement` then
`x2_decorators.transform_statement`; at an expression node,
`x1_react.transform_expression`. Each invocation appends the diagnostics the
hook recorded to the shared error log and one record to the ghost log. -/
def hooksAt {σ : Type} (T : Transformer σ) (st : RunState σ) (n : Node) :
    RunState σ × Node :=
  match n with
  | Node.stmt _ _ =>
    let r0 := T.x0_typescript.transform_statement T.ctx st.s0 n
    let st1 : RunState σ :=
      { st with
        s0 := r0.1
        errors := st.errors ++ r0.2.2
        log := st.log ++ [⟨PassId.typescript, Hook.onStatement, n, r0.2.2⟩] }
    let r2 := T.x2_decorators.transform_statement T.ctx st1.s2 r0.2.1
    ({ st1 with
       s2 := r2.1
       errors := st1.errors ++ r2.2.2
       log := st1.log ++ [⟨PassId.decorators, Hook.onStatement, r0.2.1, r2.2.2⟩] },
     r2.2.1)
  | Node.expr _ _ =>
    let r1 := T.x1_react.transform_expression T.ctx st.s1 n
    ({ st with
       s1 := r1.1
       errors := st.errors ++ r1.2.2
       log := st.log ++ [⟨PassId.react, Hook.onExpression, n, r1.2.2⟩] },
     r1.2.1)

/-- Visits a list of sibling nodes left to right with the visitor `f`,
threading the run state and collecting the rewritten nodes. -/
def visitList {σ : Type} (f : RunState σ → Node → RunState σ × Node) :
    RunState σ → List Node → RunState σ × List Node
  | st, [] => (st, [])
  | st, n :: ns =>
    let r := f st n
    let rs := visitList f r.1 ns
    (rs.1, r.2 :: rs.2)

/-- Modelled from the spec: the generic walk (`walk_mut::walk_statement_mut`
/ `walk_expression_mut` from `oxc_ast`, not under the verified sources)
descends into the *current* children of the node it is given, dispatching
each child to the visitor, and reassembles the node around the rewritten
children. -/
def walkNode {σ : Type} (f : RunState σ → Node → RunState σ × Node)
    (st : RunState σ) (n : Node) : RunState σ × Node :=
  match n with
  | Node.stmt t ks => let r := visitList f st ks; (r.1, Node.stmt t r.2)
  | Node.expr t ks => let r := visitList f st ks; (r.1, Node.expr t r.2)

/-- One visit of a node (`visit_statement` / `visit_expression` of
`VisitMut for Transformer`): run every applicable pass hook at the node in
declared order, then walk into the children of the node as the hooks left
it. `fuel` bounds the recursion depth of the walk — the in-place Rust
recursion has no such bound, so every theorem below either holds for all
fuel or assumes fuel at least the tree depth; with exhausted fuel the node
is returned unvisited. -/
def visit {σ : Type} (T : Transformer σ) :
    Nat → RunState σ → Node → RunState σ × Node
  | 0, st, n => (st, n)
  | fuel + 1, st, n =>
    let h := hooksAt T st n
    walkNode (fun st' k => visit T fuel st' k) h.1 h.2

/-- `visit_program` (the default `VisitMut` walk of the `Program` root): the
root is not itself a statement or expression; the walk dispatches each
top-level node of the body. -/
def visit_program {σ : Type} (T : Transformer σ) (fuel : Nat)
    (st : RunState σ) (p : Program) : RunState σ × Program :=
  let r := visitList (fun a b => visit T fuel a b) st p.body
  (r.1, ⟨r.2⟩)

/-- `Transformer::build` (`lib.rs` lines 85–93): visit the program, drain the
collected diagnostics exactly once, and return success when the drained
sequence is empty, otherwise failure carrying the whole sequence. The
mutated tree is returned alongside (in Rust it is mutated in place through
the caller's exclusive borrow). -/
def Transformer.build {σ : Type} (T : Transformer σ) (fuel : Nat)
    (s0 s1 s2 : σ) (program : Program) : Program × Except (List Diag) Unit :=
  let r := visit_program T fuel (RunState.init s0 s1 s2) program
  let e := r.1.take_errors
  (r.2, if e.1.isEmpty then Except.ok () else Except.error e.1)

mutual

/-- Depth of a node: 1 plus the depth of its deepest child. Used only to
state how much fuel a full traversal of a given tree needs. -/
def Node.depth : Node → Nat
  | Node.stmt _ ks => Node.depthList ks + 1
  | Node.expr _ ks => Node.depthList ks + 1

/-- Depth of the deepest node in a list (0 for the empty list). -/
def Node.depthList : List Node → Nat
  | [] => 0
  | k :: ks => max (Node.depth k) (Node.depthList ks)

end

/-- Fuel sufficient to fully traverse every top-level node of a program. -/
def Program.depth (p : Program) : Nat := Node.depthList p.body

mutual

/-- The (pass, hook, node) invocation sequence the orchestrator produces on a
tree when no hook rewrites its node: at a statement node the TypeScript and
Decorators statement hooks in that order, at an expression node the React
expression hook, in each case followed by the children in order. -/
def expectedKeys : Node → List (PassId × Hook × Node)
  | Node.stmt t ks =>
    (PassId.typescript, Hook.onStatement, Node.stmt t ks)
      :: (PassId.decorators, Hook.onStatement, Node.stmt t ks)
      :: expectedKeysList ks
  | Node.expr t ks =>
    (PassId.react, Hook.onExpression, Node.expr t ks) :: expectedKeysList ks

/-- `expectedKeys` concatenated over a list of sibling nodes. -/
def expectedKeysList : List Node → List (PassId × Hook × Node)
  | [] => []
  | k :: ks => expectedKeys k ++ expectedKeysList ks

end

/-- The hooks the orchestrator actually invokes (the TypeScript and
Decorators statement hooks and the React expression hook) return their node
unchanged. Instrumentation passes — which may still count invocations in
their state and record diagnostics — satisfy this. -/
def ShapePreserving {σ : Type} (T : Transformer σ) : Prop :=
  ∀ (c : TransformCtx) (s : σ) (n : Node),
    (T.x0_typescript.transform_statement c s n).2.1 = n
      ∧ (T.x2_decorators.transform_statement c s n).2.1 = n
      ∧ (T.x1_react.transform_expression c s n).2.1 = n

/-- The hooks the orchestrator actually invokes record no diagnostics. -/
def Silent {σ : Type} (T : Transformer σ) : Prop :=
  ∀ (c : TransformCtx) (s : σ) (n : Node),
    (T.x0_typescript.transform_statement c s n).2.2 = []
      ∧ (T.x2_decorators.transform_statement c s n).2.2 = []
      ∧ (T.x1_react.transform_expression c s n).2.2 = []

/-! ### Concrete instances used in counterexamples and witnesses -/

/-- A hook that does nothing: no rewrite, no state change, no diagnostic. -/
def idHookN : TransformCtx → Nat → Node → Nat × Node × List Diag :=
  fun _ s n => (s, n, [])

/-- A pass built from two inert hooks. -/
def idPassN : Pass Nat := ⟨idHookN, idHookN⟩

/-- A concrete shared context for the examples. -/
def exCtx : TransformCtx := ⟨⟨true, true⟩, 0⟩

/-- An instrumentation hook: counts its invocations in the pass-local state,
rewrites nothing, records nothing. -/
def countHookN : TransformCtx → Nat → Node → Nat × Node × List Diag :=
  fun _ s n => (s + 1, n, [])

/-- An instrumentation pass counting both hooks. -/
def instPassN : Pass Nat := ⟨countHookN, countHookN⟩

/-- An orchestrator whose three passes are instrumentation passes. -/
def Tinst : Transformer Nat := ⟨exCtx, instPassN, instPassN, instPassN⟩

/-- A single-statement leaf tree. -/
def ex1 : Node := Node.stmt 0 []

/-- A statement hook that replaces the whole subtree under a tag-0 statement:
the original child is discarded and a fresh `Node.stmt 2 []` child installed. -/
def swapHookN : TransformCtx → Nat → Node → Nat × Node × List Diag :=
  fun _ s n =>
    match n with
    | Node.stmt 0 _ => (s, Node.stmt 0 [Node.stmt 2 []], [])
    | _ => (s, n, [])

/-- An orchestrator whose TypeScript pass performs the subtree replacement
and whose other passes are inert. -/
def Tswap : Transformer Nat := ⟨exCtx, ⟨swapHookN, idHookN⟩, idPassN, idPassN⟩

/-- The input tree for the subtree-replacement example: a tag-0 statement
whose only child is a tag-1 statement. -/
def exSwapRoot : Node := Node.stmt 0 [Node.stmt 1 []]

/-- A statement hook that reports a diagnostic at tag-1 and tag-2 statements
and leaves every node unchanged: two independent error-triggering constructs
can then be placed in disjoint subtrees. -/
def errHookN : TransformCtx → Nat → Node → Nat × Node × List Diag :=
  fun _ s n =>
    match n with
    | Node.stmt 1 _ => (s, n, [⟨1, 1⟩])
    | Node.stmt 2 _ => (s, n, [⟨2, 2⟩])
    | _ => (s, n, [])

/-- An orchestrator whose TypeScript pass reports the two diagnostics above
and whose other passes are inert. -/
def Terr : Transformer Nat := ⟨exCtx, ⟨errHookN, idHookN⟩, idPassN, idPassN⟩

/-- A program with two error-triggering statements in disjoint subtrees. -/
def Perr : Program := ⟨[Node.stmt 0 [Node.stmt 1 [], Node.stmt 2 []]]⟩

/-- A statement hook that both mutates the tree (retagging a tag-0 statement
to tag 7) and reports a diagnostic there. -/
def mutHookN : TransformCtx → Nat → Node → Nat × Node × List Diag :=
  fun _ s n =>
    match n with
    | Node.stmt 0 ks => (s, Node.stmt 7 ks, [⟨3, 3⟩])
    | _ => (s, n, [])

/-- An orchestrator whose TypeScript pass is the mutating, erroring hook and
whose other passes are inert. -/
def Tmut : Transformer Nat := ⟨exCtx, ⟨mutHookN, idHookN⟩, idPassN, idPassN⟩

/-- A one-statement program the mutating hook fires on. -/
def Pmut : Program := ⟨[Node.stmt 0 []]⟩

/-- A program with one statement containing an expression child and a
statement child: every kind of hook fires somewhere in it. -/
def P3 : Program := ⟨[Node.stmt 0 [Node.expr 1 [], Node.stmt 2 []]]⟩

/-- The current children of a node, whatever its variant. -/
def Node.children : Node → List Node
  | Node.stmt _ ks => ks
  | Node.expr _ ks => ks

/-! ### Helper lemmas about the traversal -/

lemma visit_zero {σ : Type} (T : Transformer σ) (st : RunState σ) (n : Node) :
    visit T 0 st n = (st, n) := rfl

lemma visit_succ {σ : Type} (T : Transformer σ) (fuel : Nat) (st : RunState σ)
    (n : Node) :
    visit T (fuel + 1) st n
      = walkNode (fun a b => visit T fuel a b) (hooksAt T st n).1 (hooksAt T st n).2 :=
  rfl

lemma walkNode_fst {σ : Type} (f : RunState σ → Node → RunState σ × Node)
    (st : RunState σ) (n : Node) :
    (walkNode f st n).1 = (visitList f st n.children).1 := by
  cases n <;> rfl

lemma visitList_node_id {σ : Type} (f : RunState σ → Node → RunState σ × Node)
    (hf : ∀ st n, (f st n).2 = n) :
    ∀ (ks : List Node) (st : RunState σ), (visitList f st ks).2 = ks := by
  intro ks
  induction ks with
  | nil => intro st; rfl
  | cons k ks ih =>
    intro st
    show ((f st k).2 :: (visitList f (f st k).1 ks).2 : List Node) = k :: ks
    rw [hf, ih]

lemma visitList_errors_eq {σ : Type} (f : RunState σ → Node → RunState σ × Node)
    (hf : ∀ st n, (f st n).1.errors = st.errors) :
    ∀ (ks : List Node) (st : RunState σ),
      (visitList f st ks).1.errors = st.errors := by
  intro ks
  induction ks with
  | nil => intro st; rfl
  | cons k ks ih =>
    intro st
    show (visitList f (f st k).1 ks).1.errors = st.errors
    rw [ih, hf]

lemma visitList_log_errors {σ : Type} (f : RunState σ → Node → RunState σ × Node)
    (hf : ∀ st n, ∃ L, (f st n).1.log = st.log ++ L
      ∧ (f st n).1.errors = st.errors ++ L.flatMap LogEntry.diags) :
    ∀ (ks : List Node) (st : RunState σ),
      ∃ L, (visitList f st ks).1.log = st.log ++ L
        ∧ (visitList f st ks).1.errors = st.errors ++ L.flatMap LogEntry.diags := by
  intro ks
  induction ks with
  | nil => intro st; exact ⟨[], by simp [visitList], by simp [visitList]⟩
  | cons k ks ih =>
    intro st
    obtain ⟨L1, hl1, he1⟩ := hf st k
    obtain ⟨L2, hl2, he2⟩ := ih (f st k).1
    refine ⟨L1 ++ L2, ?_, ?_⟩
    · show (visitList f (f st k).1 ks).1.log = st.log ++ (L1 ++ L2)
      rw [hl2, hl1, List.append_assoc]
    · show (visitList f (f st k).1 ks).1.errors
        = st.errors ++ (L1 ++ L2).flatMap LogEntry.diags
      rw [he2, he1]
      simp [List.append_assoc]

lemma visitList_filter_const {σ : Type} (p : LogEntry → Bool)
    (f : RunState σ → Node → RunState σ × Node)
    (hf : ∀ st n, ((f st n).1.log).filter p = st.log.filter p) :
    ∀ (ks : List Node) (st : RunState σ),
      ((visitList f st ks).1.log).filter p = st.log.filter p := by
  intro ks
  induction ks with
  | nil => intro st; rfl
  | cons k ks ih =>
    intro st
    show ((visitList f (f st k).1 ks).1.log).filter p = st.log.filter p
    rw [ih, hf]

lemma visitList_keys {σ : Type} (f : RunState σ → Node → RunState σ × Node) :
    ∀ ks : List Node,
      (∀ c ∈ ks, ∀ st : RunState σ,
        (((f st c).1.log).map LogEntry.key = st.log.map LogEntry.key ++ expectedKeys c)
          ∧ (f st c).2 = c) →
      ∀ st : RunState σ,
        (((visitList f st ks).1.log).map LogEntry.key
            = st.log.map LogEntry.key ++ expectedKeysList ks)
          ∧ (visitList f st ks).2 = ks := by
  intro ks
  induction ks with
  | nil => intro _ st; exact ⟨by simp [visitList, expectedKeysList], rfl⟩
  | cons k ks ih =>
    intro hc st
    obtain ⟨hlk, hnk⟩ := hc k (by simp) st
    obtain ⟨hlt, hnt⟩ := ih (fun c hc2 st2 => hc c (by simp [hc2]) st2) (f st k).1
    constructor
    · show ((visitList f (f st k).1 ks).1.log).map LogEntry.key
        = st.log.map LogEntry.key ++ expectedKeysList (k :: ks)
      rw [hlt, hlk]
      simp [expectedKeysList, List.append_assoc]
    · show ((f st k).2 :: (visitList f (f st k).1 ks).2 : List Node) = k :: ks
      rw [hnk, hnt]

lemma hooksAt_log_errors {σ : Type} (T : Transformer σ) (st : RunState σ)
    (n : Node) :
    ∃ E, (hooksAt T st n).1.log = st.log ++ E
      ∧ (hooksAt T st n).1.errors = st.errors ++ E.flatMap LogEntry.diags := by
  cases n with
  | stmt t ks =>
    refine ⟨(hooksAt T st (Node.stmt t ks)).1.log.drop st.log.length, ?_, ?_⟩
    · simp [hooksAt, List.append_assoc]
    · simp [hooksAt, List.append_assoc]
  | expr t ks =>
    refine ⟨(hooksAt T st (Node.expr t ks)).1.log.drop st.log.length, ?_, ?_⟩
    · simp [hooksAt, List.append_assoc]
    · simp [hooksAt, List.append_assoc]

lemma visit_log_errors {σ : Type} (T : Transformer σ) :
    ∀ (fuel : Nat) (st : RunState σ) (n : Node),
      ∃ L, (visit T fuel st n).1.log = st.log ++ L
        ∧ (visit T fuel st n).1.errors = st.errors ++ L.flatMap LogEntry.diags := by
  intro fuel
  induction fuel with
  | zero => intro st n; exact ⟨[], by simp [visit_zero], by simp [visit_zero]⟩
  | succ fuel ih =>
    intro st n
    obtain ⟨E, hE1, hE2⟩ := hooksAt_log_errors T st n
    obtain ⟨L, hL1, hL2⟩ :=
      visitList_log_errors (fun a b => visit T fuel a b) ih
        (hooksAt T st n).2.children (hooksAt T st n).1
    refine ⟨E ++ L, ?_, ?_⟩
    · rw [visit_succ, walkNode_fst, hL1, hE1, List.append_assoc]
    · rw [visit_succ, walkNode_fst, hL2, hE2]
      simp [List.append_assoc]

lemma hooksAt_node_id {σ : Type} (T : Transformer σ) (hsp : ShapePreserving T)
    (st : RunState σ) (n : Node) : (hooksAt T st n).2 = n := by
  have e0 : ∀ (s : σ) (m : Node),
      (T.x0_typescript.transform_statement T.ctx s m).2.1 = m :=
    fun s m => (hsp T.ctx s m).1
  have e2 : ∀ (s : σ) (m : Node),
      (T.x2_decorators.transform_statement T.ctx s m).2.1 = m :=
    fun s m => (hsp T.ctx s m).2.1
  have e1 : ∀ (s : σ) (m : Node),
      (T.x1_react.transform_expression T.ctx s m).2.1 = m :=
    fun s m => (hsp T.ctx s m).2.2
  cases n with
  | stmt t ks => simp [hooksAt, e0, e2]
  | expr t ks => simp [hooksAt, e1]

lemma visit_node_id {σ : Type} (T : Transformer σ) (hsp : ShapePreserving T) :
    ∀ (fuel : Nat) (st : RunState σ) (n : Node), (visit T fuel st n).2 = n := by
  intro fuel
  induction fuel with
  | zero => intro st n; rfl
  | succ fuel ih =>
    intro st n
    rw [visit_succ, hooksAt_node_id T hsp]
    cases n with
    | stmt t ks =>
      show Node.stmt t (visitList (fun a b => visit T fuel a b) _ ks).2 = Node.stmt t ks
      rw [visitList_node_id _ ih]
    | expr t ks =>
      show Node.expr t (visitList (fun a b => visit T fuel a b) _ ks).2 = Node.expr t ks
      rw [visitList_node_id _ ih]

lemma hooksAt_errors_eq {σ : Type} (T : Transformer σ) (hsil : Silent T)
    (st : RunState σ) (n : Node) : (hooksAt T st n).1.errors = st.errors := by
  have d0 : ∀ (s : σ) (m : Node),
      (T.x0_typescript.transform_statement T.ctx s m).2.2 = [] :=
    fun s m => (hsil T.ctx s m).1
  have d2 : ∀ (s : σ) (m : Node),
      (T.x2_decorators.transform_statement T.ctx s m).2.2 = [] :=
    fun s m => (hsil T.ctx s m).2.1
  have d1 : ∀ (s : σ) (m : Node),
      (T.x1_react.transform_expression T.ctx s m).2.2 = [] :=
    fun s m => (hsil T.ctx s m).2.2
  cases n with
  | stmt t ks => simp [hooksAt, d0, d2]
  | expr t ks => simp [hooksAt, d1]

lemma visit_errors_eq {σ : Type} (T : Transformer σ) (hsil : Silent T) :
    ∀ (fuel : Nat) (st : RunState σ) (n : Node),
      (visit T fuel st n).1.errors = st.errors := by
  intro fuel
  induction fuel with
  | zero => intro st n; rfl
  | succ fuel ih =>
    intro st n
    rw [visit_succ, walkNode_fst, visitList_errors_eq _ ih, hooksAt_errors_eq T hsil]

lemma hooksAt_filter_const {σ : Type} (T : Transformer σ) (p : LogEntry → Bool)
    (h0 : ∀ m d, p ⟨PassId.typescript, Hook.onStatement, m, d⟩ = false)
    (h1 : ∀ m d, p ⟨PassId.react, Hook.onExpression, m, d⟩ = false)
    (h2 : ∀ m d, p ⟨PassId.decorators, Hook.onStatement, m, d⟩ = false)
    (st : RunState σ) (n : Node) :
    ((hooksAt T st n).1.log).filter p = st.log.filter p := by
  cases n with
  | stmt t ks => simp [hooksAt, List.filter_append, h0, h2]
  | expr t ks => simp [hooksAt, List.filter_append, h1]

lemma visit_filter_const {σ : Type} (T : Transformer σ) (p : LogEntry → Bool)
    (h0 : ∀ m d, p ⟨PassId.typescript, Hook.onStatement, m, d⟩ = false)
    (h1 : ∀ m d, p ⟨PassId.react, Hook.onExpression, m, d⟩ = false)
    (h2 : ∀ m d, p ⟨PassId.decorators, Hook.onStatement, m, d⟩ = false) :
    ∀ (fuel : Nat) (st : RunState σ) (n : Node),
      ((visit T fuel st n).1.log).filter p = st.log.filter p := by
  intro fuel
  induction fuel with
  | zero => intro st n; rfl
  | succ fuel ih =>
    intro st n
    rw [visit_succ, walkNode_fst, visitList_filter_const p _ ih,
      hooksAt_filter_const T p h0 h1 h2]

lemma Node.depth_pos (n : Node) : 0 < Node.depth n := by
  cases n <;> simp [Node.depth]

lemma Node.depth_le_of_mem {k : Node} :
    ∀ {ks : List Node}, k ∈ ks → Node.depth k ≤ Node.depthList ks := by
  intro ks
  induction ks with
  | nil => intro h; cases h
  | cons a ks ih =>
    intro h
    rw [Node.depthList]
    rcases List.mem_cons.mp h with h | h
    · rw [h]; exact le_max_left _ _
    · exact le_trans (ih h) (le_max_right _ _)

lemma visit_keys {σ : Type} (T : Transformer σ) (hsp : ShapePreserving T) :
    ∀ (fuel : Nat) (n : Node), Node.depth n ≤ fuel →
      ∀ st : RunState σ,
        (((visit T fuel st n).1.log).map LogEntry.key
            = st.log.map LogEntry.key ++ expectedKeys n)
          ∧ (visit T fuel st n).2 = n := by
  have e0 : ∀ (s : σ) (m : Node),
      (T.x0_typescript.transform_statement T.ctx s m).2.1 = m :=
    fun s m => (hsp T.ctx s m).1
  intro fuel
  induction fuel with
  | zero =>
    intro n hd
    exact absurd (lt_of_lt_of_le (Node.depth_pos n) hd) (lt_irrefl 0)
  | succ fuel ih =>
    intro n hd st
    have hAn : (hooksAt T st n).2 = n := hooksAt_node_id T hsp st n
    cases n with
    | stmt t ks =>
      have hks : Node.depthList ks ≤ fuel := by
        rw [Node.depth] at hd; omega
      have hch : ∀ c ∈ ks, ∀ st2 : RunState σ,
          (((visit T fuel st2 c).1.log).map LogEntry.key
              = st2.log.map LogEntry.key ++ expectedKeys c)
            ∧ (visit T fuel st2 c).2 = c :=
        fun c hc st2 => ih c (le_trans (Node.depth_le_of_mem hc) hks) st2
      obtain ⟨hlog, hnode⟩ :=
        visitList_keys (fun a b => visit T fuel a b) ks hch
          (hooksAt T st (Node.stmt t ks)).1
      have hAl : (((hooksAt T st (Node.stmt t ks)).1.log).map LogEntry.key)
          = st.log.map LogEntry.key
            ++ [(PassId.typescript, Hook.onStatement, Node.stmt t ks),
                (PassId.decorators, Hook.onStatement, Node.stmt t ks)] := by
        simp [hooksAt, e0, LogEntry.key]
      constructor
      · rw [visit_succ, walkNode_fst, hAn]
        show ((visitList (fun a b => visit T fuel a b)
            (hooksAt T st (Node.stmt t ks)).1 ks).1.log).map LogEntry.key = _
        rw [hlog, hAl]
        simp [expectedKeys, List.append_assoc]
      · rw [visit_succ, hAn]
        show Node.stmt t (visitList (fun a b => visit T fuel a b)
          (hooksAt T st (Node.stmt t ks)).1 ks).2 = Node.stmt t ks
        rw [hnode]
    | expr t ks =>
      have hks : Node.depthList ks ≤ fuel := by
        rw [Node.depth] at hd; omega
      have hch : ∀ c ∈ ks, ∀ st2 : RunState σ,
          (((visit T fuel st2 c).1.log).map LogEntry.key
              = st2.log.map LogEntry.key ++ expectedKeys c)
            ∧ (visit T fuel st2 c).2 = c :=
        fun c hc st2 => ih c (le_trans (Node.depth_le_of_mem hc) hks) st2
      obtain ⟨hlog, hnode⟩ :=
        visitList_keys (fun a b => visit T fuel a b) ks hch
          (hooksAt T st (Node.expr t ks)).1
      have hAl : (((hooksAt T st (Node.expr t ks)).1.log).map LogEntry.key)
          = st.log.map LogEntry.key
            ++ [(PassId.react, Hook.onExpression, Node.expr t ks)] := by
        simp [hooksAt, LogEntry.key]
      constructor
      · rw [visit_succ, walkNode_fst, hAn]
        show ((visitList (fun a b => visit T fuel a b)
            (hooksAt T st (Node.expr t ks)).1 ks).1.log).map LogEntry.key = _
        rw [hlog, hAl]
        simp [expectedKeys, List.append_assoc]
      · rw [visit_succ, hAn]
        show Node.expr t (visitList (fun a b => visit T fuel a b)
          (hooksAt T st (Node.expr t ks)).1 ks).2 = Node.expr t ks
        rw [hnode]

/-! ### Claims -/

/-- C1: `build` returns success exactly when the diagnostic sequence drained
after the traversal is empty; otherwise it returns failure carrying exactly
that sequence — the very list the run accumulated, with no entry dropped,
truncated, reordered or deduplicated — and alongside it the traversed tree. -/
theorem claim_C1_build_result {σ : Type} (T : Transformer σ) (fuel : Nat)
    (s0 s1 s2 : σ) (p : Program) :
    ((T.build fuel s0 s1 s2 p).2 = Except.ok ()
        ↔ (visit_program T fuel (RunState.init s0 s1 s2) p).1.errors = [])
      ∧ ((visit_program T fuel (RunState.init s0 s1 s2) p).1.errors ≠ [] →
          (T.build fuel s0 s1 s2 p).2
            = Except.error (visit_program T fuel (RunState.init s0 s1 s2) p).1.errors)
      ∧ (T.build fuel s0 s1 s2 p).1
          = (visit_program T fuel (RunState.init s0 s1 s2) p).2 := by
  have key : ∀ E : List Diag,
      ((if E.isEmpty then Except.ok () else Except.error E) = Except.ok () ↔ E = [])
        ∧ (E ≠ [] →
            (if E.isEmpty then Except.ok () else Except.error E) = Except.error E) := by
    intro E
    cases E <;> simp
  exact ⟨(key _).1, (key _).2, rfl⟩

/-- C1 witness: on a concrete erroring run the drained sequence is nonempty
and `build` returns failure carrying it in full. -/
theorem claim_C1_witness :
    (visit_program Terr 2 (RunState.init 0 0 0) Perr).1.errors ≠ []
      ∧ (Terr.build 2 0 0 0 Perr).2
          = Except.error (visit_program Terr 2 (RunState.init 0 0 0) Perr).1.errors :=
  ⟨by decide, (claim_C1_build_result Terr 2 0 0 0 Perr).2.1 (by decide)⟩

/-- C2 counterexample: the claim demands that at every statement node every
pass's `on_statement` hook runs exactly once, in order TypeScript, React,
Decorators. On the single-statement tree `ex1` the run's hook-invocation log
consists of the TypeScript and Decorators statement hooks only: the React
pass is invoked zero times, not exactly once, so the claim fails as stated
(its `visit_statement` invokes only `x0_typescript` and `x2_decorators`). -/
theorem claim_C2_counterexample :
    ((visit Tinst 1 (RunState.init 0 0 0) ex1).1.log.map LogEntry.key
        = [(PassId.typescript, Hook.onStatement, ex1),
           (PassId.decorators, Hook.onStatement, ex1)])
      ∧ ((visit Tinst 1 (RunState.init 0 0 0) ex1).1.log.filter
            (fun e => e.pid == PassId.react)).length = 0 :=
  ⟨rfl, rfl⟩

/-- C2 (amended): at every statement node the statement-applicable passes —
TypeScript then Decorators — are each invoked exactly once, in declared
order, before the walk descends (the two entries are appended to the log
ahead of whatever the descent appends); the React pass's statement hook is
never invoked anywhere in a run. -/
theorem claim_C2_statement_hook_order :
    (∀ (σ : Type) (T : Transformer σ) (fuel : Nat) (st : RunState σ)
        (t : Nat) (ks : List Node),
      ∃ rest,
        (visit T (fuel + 1) st (Node.stmt t ks)).1.log
          = st.log
            ++ LogEntry.mk PassId.typescript Hook.onStatement (Node.stmt t ks)
                 (T.x0_typescript.transform_statement T.ctx st.s0 (Node.stmt t ks)).2.2
              :: LogEntry.mk PassId.decorators Hook.onStatement
                   (T.x0_typescript.transform_statement T.ctx st.s0 (Node.stmt t ks)).2.1
                   (T.x2_decorators.transform_statement T.ctx st.s2
                     (T.x0_typescript.transform_statement T.ctx st.s0
                       (Node.stmt t ks)).2.1).2.2
              :: rest)
      ∧ (∀ (σ : Type) (T : Transformer σ) (fuel : Nat) (a b c : σ) (n : Node),
          (visit T fuel (RunState.init a b c) n).1.log.filter
              (fun e => decide (e.pid = PassId.react ∧ e.hook = Hook.onStatement))
            = []) := by
  constructor
  · intro σ T fuel st t ks
    obtain ⟨L, hL, -⟩ :=
      visitList_log_errors (fun a b => visit T fuel a b) (visit_log_errors T fuel)
        (hooksAt T st (Node.stmt t ks)).2.children (hooksAt T st (Node.stmt t ks)).1
    refine ⟨L, ?_⟩
    rw [visit_succ, walkNode_fst, hL]
    show (hooksAt T st (Node.stmt t ks)).1.log ++ L = _
    simp [hooksAt, List.append_assoc]
  · intro σ T fuel a b c n
    have h := visit_filter_const T
      (fun e => decide (e.pid = PassId.react ∧ e.hook = Hook.onStatement))
      (fun m d => by simp) (fun m d => by simp) (fun m d => by simp)
      fuel (RunState.init a b c) n
    rw [h]
    rfl

/-- C3: on any tree, with instrumentation passes (hooks that rewrite
nothing; they may still count and report) and fuel at least the tree depth,
the run's complete invocation log is exactly `expectedKeysList`: every
statement node position contributes its TypeScript and Decorators statement
hooks exactly once each, every expression node position its React expression
hook exactly once, never zero times and never twice, and the tree is
returned unchanged. -/
theorem claim_C3_exactly_once {σ : Type} (T : Transformer σ)
    (hsp : ShapePreserving T) (fuel : Nat) (p : Program)
    (hfuel : Program.depth p ≤ fuel) (s0 s1 s2 : σ) :
    ((visit_program T fuel (RunState.init s0 s1 s2) p).1.log.map LogEntry.key
        = expectedKeysList p.body)
      ∧ (visit_program T fuel (RunState.init s0 s1 s2) p).2 = p := by
  have hch : ∀ c ∈ p.body, ∀ st2 : RunState σ,
      (((visit T fuel st2 c).1.log).map LogEntry.key
          = st2.log.map LogEntry.key ++ expectedKeys c)
        ∧ (visit T fuel st2 c).2 = c :=
    fun c hc st2 =>
      visit_keys T hsp fuel c (le_trans (Node.depth_le_of_mem hc) hfuel) st2
  obtain ⟨hlog, hnode⟩ :=
    visitList_keys (fun a b => visit T fuel a b) p.body hch (RunState.init s0 s1 s2)
  constructor
  · show ((visitList (fun a b => visit T fuel a b)
        (RunState.init s0 s1 s2) p.body).1.log).map LogEntry.key = _
    rw [hlog]
    rfl
  · show (⟨(visitList (fun a b => visit T fuel a b)
        (RunState.init s0 s1 s2) p.body).2⟩ : Program) = p
    rw [hnode]

/-- C3 witness: a concrete instrumented run over a tree containing both node
categories, with exactly enough fuel, produces exactly the expected
invocation log. -/
theorem claim_C3_witness :
    (ShapePreserving Tinst ∧ Program.depth P3 ≤ 2)
      ∧ ((visit_program Tinst 2 (RunState.init 0 0 0) P3).1.log.map LogEntry.key
            = expectedKeysList P3.body)
        ∧ (visit_program Tinst 2 (RunState.init 0 0 0) P3).2 = P3 :=
  ⟨⟨fun c s n => ⟨rfl, rfl, rfl⟩, by decide⟩,
   claim_C3_exactly_once Tinst (fun c s n => ⟨rfl, rfl, rfl⟩) 2 P3 (by decide) 0 0 0⟩

/-- C4: descent always follows the latest mutated form of a node. In
general, one visit step is exactly: run the hook phase, then walk the
children of the node the hooks produced. Concretely, when the TypeScript
hook replaces the subtree under `exSwapRoot` (discarding the original
`Node.stmt 1 []` child and installing `Node.stmt 2 []`), the walk traverses
the replacement child — it appears in the invocation log — while the
discarded original child is never visited. -/
theorem claim_C4_descend_into_mutated :
    (∀ (σ : Type) (T : Transformer σ) (fuel : Nat) (st : RunState σ) (n : Node),
        visit T (fuel + 1) st n
          = walkNode (fun a b => visit T fuel a b) (hooksAt T st n).1 (hooksAt T st n).2)
      ∧ (visit Tswap 2 (RunState.init 0 0 0) exSwapRoot).2
          = Node.stmt 0 [Node.stmt 2 []]
      ∧ (visit Tswap 2 (RunState.init 0 0 0) exSwapRoot).1.log.map LogEntry.node
          = [exSwapRoot, Node.stmt 0 [Node.stmt 2 []], Node.stmt 2 [], Node.stmt 2 []]
      ∧ ¬ Node.stmt 1 []
            ∈ (visit Tswap 2 (RunState.init 0 0 0) exSwapRoot).1.log.map LogEntry.node := by
  refine ⟨fun σ T fuel st n => rfl, rfl, rfl, ?_⟩
  intro h
  rw [show (visit Tswap 2 (RunState.init 0 0 0) exSwapRoot).1.log.map LogEntry.node
      = [exSwapRoot, Node.stmt 0 [Node.stmt 2 []], Node.stmt 2 [], Node.stmt 2 []]
    from rfl] at h
  simp [exSwapRoot] at h

/-- C5: at every expression node, the expression-applicable passes run in
declared order before descent — in this pipeline only the React pass's
expression hook applies, so exactly one entry for it is appended ahead of
the descent's entries, the walk then descends into React's output node, and
the TypeScript/Decorators passes are never invoked on an expression
anywhere in a run. -/
theorem claim_C5_expression_hook_order :
    (∀ (σ : Type) (T : Transformer σ) (fuel : Nat) (st : RunState σ)
        (t : Nat) (ks : List Node),
      ∃ rest,
        (visit T (fuel + 1) st (Node.expr t ks)).1.log
          = st.log
            ++ LogEntry.mk PassId.react Hook.onExpression (Node.expr t ks)
                 (T.x1_react.transform_expression T.ctx st.s1 (Node.expr t ks)).2.2
              :: rest)
      ∧ (∀ (σ : Type) (T : Transformer σ) (fuel : Nat) (st : RunState σ)
          (t : Nat) (ks : List Node),
          visit T (fuel + 1) st (Node.expr t ks)
            = walkNode (fun a b => visit T fuel a b)
                (hooksAt T st (Node.expr t ks)).1
                (T.x1_react.transform_expression T.ctx st.s1 (Node.expr t ks)).2.1)
      ∧ (∀ (σ : Type) (T : Transformer σ) (fuel : Nat) (a b c : σ) (n : Node),
          (visit T fuel (RunState.init a b c) n).1.log.filter
              (fun e => decide (e.hook = Hook.onExpression ∧ e.pid ≠ PassId.react))
            = []) := by
  refine ⟨?_, fun σ T fuel st t ks => rfl, ?_⟩
  · intro σ T fuel st t ks
    obtain ⟨L, hL, -⟩ :=
      visitList_log_errors (fun a b => visit T fuel a b) (visit_log_errors T fuel)
        (hooksAt T st (Node.expr t ks)).2.children (hooksAt T st (Node.expr t ks)).1
    refine ⟨L, ?_⟩
    rw [visit_succ, walkNode_fst, hL]
    show (hooksAt T st (Node.expr t ks)).1.log ++ L = _
    simp [hooksAt, List.append_assoc]
  · intro σ T fuel a b c n
    have h := visit_filter_const T
      (fun e => decide (e.hook = Hook.onExpression ∧ e.pid ≠ PassId.react))
      (fun m d => by simp) (fun m d => by simp) (fun m d => by simp)
      fuel (RunState.init a b c) n
    rw [h]
    rfl

/-- C6: at every statement node the TypeScript (type-erasure) hook runs
strictly before the Decorators hook: the log records the TypeScript entry
ahead of the Decorators entry, and the node the Decorators hook receives is
exactly the TypeScript hook's output — so the decorator pass never observes
syntax the type-erasure pass removed at that node. The hook phase's final
node is the composition: Decorators applied to TypeScript's output. -/
theorem claim_C6_typescript_before_decorators :
    (∀ (σ : Type) (T : Transformer σ) (fuel : Nat) (st : RunState σ)
        (t : Nat) (ks : List Node),
      ∃ rest,
        (visit T (fuel + 1) st (Node.stmt t ks)).1.log
          = st.log
            ++ LogEntry.mk PassId.typescript Hook.onStatement (Node.stmt t ks)
                 (T.x0_typescript.transform_statement T.ctx st.s0 (Node.stmt t ks)).2.2
              :: LogEntry.mk PassId.decorators Hook.onStatement
                   (T.x0_typescript.transform_statement T.ctx st.s0 (Node.stmt t ks)).2.1
                   (T.x2_decorators.transform_statement T.ctx st.s2
                     (T.x0_typescript.transform_statement T.ctx st.s0
                       (Node.stmt t ks)).2.1).2.2
              :: rest)
      ∧ (∀ (σ : Type) (T : Transformer σ) (st : RunState σ) (t : Nat) (ks : List Node),
          (hooksAt T st (Node.stmt t ks)).2
            = (T.x2_decorators.transform_statement T.ctx st.s2
                (T.x0_typescript.transform_statement T.ctx st.s0
                  (Node.stmt t ks)).2.1).2.1) := by
  refine ⟨?_, fun σ T st t ks => rfl⟩
  intro σ T fuel st t ks
  obtain ⟨L, hL, -⟩ :=
    visitList_log_errors (fun a b => visit T fuel a b) (visit_log_errors T fuel)
      (hooksAt T st (Node.stmt t ks)).2.children (hooksAt T st (Node.stmt t ks)).1
  refine ⟨L, ?_⟩
  rw [visit_succ, walkNode_fst, hL]
  show (hooksAt T st (Node.stmt t ks)).1.log ++ L = _
  simp [hooksAt, List.append_assoc]

/-- C7: the walk never short-circuits on error: the drained diagnostic
sequence of any run is exactly the concatenation, in hook-invocation order,
of the diagnostics every hook recorded — so any two diagnostics recorded at
distinct nodes both survive to the end, in visitation order. Concretely,
two independent error-triggering statements in disjoint subtrees of `Perr`
both appear in `build`'s failure value, in visitation order. -/
theorem claim_C7_no_early_termination :
    (∀ (σ : Type) (T : Transformer σ) (fuel : Nat) (s0 s1 s2 : σ) (p : Program),
        (visit_program T fuel (RunState.init s0 s1 s2) p).1.errors
          = ((visit_program T fuel (RunState.init s0 s1 s2) p).1.log).flatMap
              LogEntry.diags)
      ∧ (Terr.build 2 0 0 0 Perr).2 = Except.error [⟨1, 1⟩, ⟨2, 2⟩]
      ∧ (Terr.build 2 0 0 0 Perr).1 = Perr := by
  refine ⟨?_, rfl, rfl⟩
  intro σ T fuel s0 s1 s2 p
  obtain ⟨L, hl, he⟩ :=
    visitList_log_errors (fun a b => visit T fuel a b) (visit_log_errors T fuel)
      p.body (RunState.init s0 s1 s2)
  show (visitList (fun a b => visit T fuel a b)
        (RunState.init s0 s1 s2) p.body).1.errors
      = ((visitList (fun a b => visit T fuel a b)
        (RunState.init s0 s1 s2) p.body).1.log).flatMap LogEntry.diags
  rw [he, hl]
  rfl

/-- C8: with every pass disabled via its configuration record, `build` is a
pure identity transform for every input tree, every fuel and every enabled
behavior the passes would otherwise have had: the tree comes back
structurally unchanged and the result is success with an empty diagnostic
sequence. -/
theorem claim_C8_disabled_identity {σ : Type} (asm : CompilerAssumptions)
    (B0 B1 B2 : Pass σ) (stty : SourceType) (sem : Semantic) (fuel : Nat)
    (s0 s1 s2 : σ) (p : Program) :
    (Transformer.new stty sem ⟨asm, ⟨false⟩, ⟨false⟩, ⟨false⟩⟩ B0 B1 B2).build
        fuel s0 s1 s2 p = (p, Except.ok ()) := by
  have hsp : ShapePreserving
      (Transformer.new stty sem ⟨asm, ⟨false⟩, ⟨false⟩, ⟨false⟩⟩ B0 B1 B2) :=
    fun c s n => ⟨rfl, rfl, rfl⟩
  have hsil : Silent
      (Transformer.new stty sem ⟨asm, ⟨false⟩, ⟨false⟩, ⟨false⟩⟩ B0 B1 B2) :=
    fun c s n => ⟨rfl, rfl, rfl⟩
  have h1 : (visit_program
      (Transformer.new stty sem ⟨asm, ⟨false⟩, ⟨false⟩, ⟨false⟩⟩ B0 B1 B2)
      fuel (RunState.init s0 s1 s2) p).2 = p := by
    show (⟨(visitList (fun a b =>
        visit (Transformer.new stty sem ⟨asm, ⟨false⟩, ⟨false⟩, ⟨false⟩⟩ B0 B1 B2)
          fuel a b)
        (RunState.init s0 s1 s2) p.body).2⟩ : Program) = p
    rw [visitList_node_id _ (visit_node_id _ hsp fuel)]
  have h2 : (visit_program
      (Transformer.new stty sem ⟨asm, ⟨false⟩, ⟨false⟩, ⟨false⟩⟩ B0 B1 B2)
      fuel (RunState.init s0 s1 s2) p).1.errors = [] := by
    show (visitList (fun a b =>
        visit (Transformer.new stty sem ⟨asm, ⟨false⟩, ⟨false⟩, ⟨false⟩⟩ B0 B1 B2)
          fuel a b)
        (RunState.init s0 s1 s2) p.body).1.errors = []
    rw [visitList_errors_eq _ (visit_errors_eq _ hsil fuel)]
    rfl
  show ((visit_program _ fuel (RunState.init s0 s1 s2) p).2,
      if (visit_program _ fuel (RunState.init s0 s1 s2) p).1.errors.isEmpty
      then Except.ok ()
      else Except.error (visit_program _ fuel (RunState.init s0 s1 s2) p).1.errors)
    = (p, Except.ok ())
  rw [h1, h2]
  rfl

/-- C9: failure does not roll the tree back: on `Pmut` the run both mutates
the tree (the tag-0 statement is retagged to 7) and records a diagnostic;
`build` returns failure together with the mutated tree, which differs from
the input. -/
theorem claim_C9_failure_keeps_mutations :
    Tmut.build 1 0 0 0 Pmut = (⟨[Node.stmt 7 []]⟩, Except.error [⟨3, 3⟩])
      ∧ (⟨[Node.stmt 7 []]⟩ : Program) ≠ Pmut := by
  refine ⟨rfl, ?_⟩
  intro h
  simp [Pmut] at h

/-- C10: the transformation is deterministic: two runs of `build` on equal
input trees, with equal dialect descriptors, semantic results, options,
fuel, and initial pass states, produce equal output trees and identical
diagnostic sequences (the embedding is a pure function of these inputs; the
Rust run consumes no other input and is single-threaded). -/
theorem claim_C10_deterministic {σ : Type} (st1 st2 : SourceType)
    (sem1 sem2 : Semantic) (o1 o2 : TransformOptions) (B0 B1 B2 : Pass σ)
    (fuel1 fuel2 : Nat) (s0 s1 s2 : σ) (p1 p2 : Program)
    (hst : st1 = st2) (hsem : sem1 = sem2) (ho : o1 = o2) (hfuel : fuel1 = fuel2)
    (hp : p1 = p2) :
    (Transformer.new st1 sem1 o1 B0 B1 B2).build fuel1 s0 s1 s2 p1
      = (Transformer.new st2 sem2 o2 B0 B1 B2).build fuel2 s0 s1 s2 p2 := by
  subst hst
  subst hsem
  subst ho
  subst hfuel
  subst hp
  rfl

/-- C10 witness: determinism applied at a concrete run. -/
theorem claim_C10_witness :
    ((⟨true, true⟩ : SourceType) = ⟨true, true⟩
        ∧ (0 : Semantic) = 0
        ∧ (⟨⟨[]⟩, ⟨true⟩, ⟨true⟩, ⟨true⟩⟩ : TransformOptions)
            = ⟨⟨[]⟩, ⟨true⟩, ⟨true⟩, ⟨true⟩⟩
        ∧ (2 : Nat) = 2
        ∧ Perr = Perr)
      ∧ (Transformer.new ⟨true, true⟩ 0 ⟨⟨[]⟩, ⟨true⟩, ⟨true⟩, ⟨true⟩⟩
            (⟨errHookN, idHookN⟩ : Pass Nat) idPassN idPassN).build 2 0 0 0 Perr
        = (Transformer.new ⟨true, true⟩ 0 ⟨⟨[]⟩, ⟨true⟩, ⟨true⟩, ⟨true⟩⟩
            (⟨errHookN, idHookN⟩ : Pass Nat) idPassN idPassN).build 2 0 0 0 Perr :=
  ⟨⟨rfl, rfl, rfl, rfl, rfl⟩,
   claim_C10_deterministic ⟨true, true⟩ ⟨true, true⟩ 0 0
     ⟨⟨[]⟩, ⟨true⟩, ⟨true⟩, ⟨true⟩⟩ ⟨⟨[]⟩, ⟨true⟩, ⟨true⟩, ⟨true⟩⟩
     ⟨errHookN, idHookN⟩ idPassN idPassN 2 2 0 0 0 Perr Perr
     rfl rfl rfl rfl rfl⟩

end Oxc
